import Mathlib

/-!
Shallow embedding of the RDF term core of this repository:
the generic `Term` sum type of `src/term/mod.rs` (IRI, blank node, literal,
variable, parametric in a string-ownership strategy), its validated
constructors, cross-ownership equality, hashing, and the rehoming operation
`copy_with` / `copy`, together with the `Namespace` helper of `api/src/ns.rs`.

The submodules `iri_term.rs`, `bnode_id.rs`, `literal_kind.rs` and the
`sophia_iri` validity primitive are part of the repository but not available
here; those parts are modelled from the specification and marked as such in
their doc comments. Everything else follows the source files line by line.
-/

set_option autoImplicit false

namespace Sophia

/-- Capability of a string-ownership strategy: the Rust bound
`T: Borrow<str>` gives `borrow`, and the conversion bound `T: From<&str>`
used by the constructors and by `copy` gives `fromStr`. All four concrete
strategies of the source (`&str`, `Box<str>`, `Rc<str>`, `Arc<str>`) satisfy
`borrow (fromStr s) = s`, which is recorded as a law. -/
class StrLike (T : Type) where
  borrow : T → String
  fromStr : String → T
  borrow_fromStr : ∀ s : String, borrow (fromStr s) = s

/-- The uniquely-owned strategy (`Box<str>`): modelled by `String` itself. -/
instance : StrLike String where
  borrow s := s
  fromStr s := s
  borrow_fromStr _ := rfl

/-- A reference-counted strategy (`Rc<str>` / `Arc<str>`): modelled by a
wrapper around `String`, so that it is a genuinely different Lean type. -/
structure RcStr where
  str : String
deriving DecidableEq

instance : StrLike RcStr where
  borrow r := r.str
  fromStr s := ⟨s⟩
  borrow_fromStr _ := rfl

open StrLike (borrow fromStr)

/-- Bounded range test on code points. -/
def inRange (n lo hi : Nat) : Bool := lo ≤ n && n ≤ hi

/-- Hexadecimal digit test, used for percent-encoded octets. -/
def isHexDigitCh (c : Char) : Bool :=
  c.isDigit || (inRange c.toNat 97 102) || (inRange c.toNat 65 70)

/-- RFC 3987 `ucschar` repertoire (private-use and non-character gaps
approximated by the enclosing ranges). -/
def isUcsChar (c : Char) : Bool :=
  inRange c.toNat 0xA0 0xD7FF || inRange c.toNat 0xF900 0xFDCF ||
  inRange c.toNat 0xFDF0 0xFFEF || inRange c.toNat 0x10000 0xEFFFD

/-- Characters admissible somewhere in an IRI reference:
`iunreserved`, `gen-delims` and `sub-delims` of RFC 3986/3987. -/
def isIriChar (c : Char) : Bool :=
  c.isAlphanum || c = '-' || c = '.' || c = '_' || c = '~' ||
  c = ':' || c = '/' || c = '?' || c = '#' || c = '[' || c = ']' || c = '@' ||
  c = '!' || c = '$' || c = '&' || c.toNat = 39 || c = '(' || c = ')' ||
  c = '*' || c = '+' || c = ',' || c = ';' || c = '=' ||
  isUcsChar c

/-- Character-level scan of an IRI reference: every character is drawn from
the IRI repertoire, with `%` introducing exactly two hexadecimal digits. -/
def validIriChars : List Char → Bool
  | [] => true
  | '%' :: a :: b :: rest => isHexDigitCh a && isHexDigitCh b && validIriChars rest
  | '%' :: _ => false
  | c :: rest => isIriChar c && validIriChars rest

/-- Modelled from the spec: the `sophia_iri` primitive `is_valid_iri_ref` is
not under `src/`; the spec treats IRI-reference validity as the single
syntactic primitive "is this string syntactically a valid IRI reference"
(RFC 3987). We model its character-level content: every character belongs to
the IRI repertoire and percent signs are followed by two hexadecimal digits;
in particular a space is invalid anywhere, as in the spec's negative case. -/
def is_valid_iri_ref (s : String) : Bool := validIriChars s.data

/-- Modelled from the spec: the cached "is absolute" flag of the IRI
representation. An IRI reference is absolute when it starts with a scheme
(`ALPHA (ALPHA / DIGIT / + / - / .)* ":"`). -/
def schemeTail : List Char → Bool
  | [] => false
  | c :: rest =>
    if c = ':' then true
    else (c.isAlphanum || c = '+' || c = '-' || c = '.') && schemeTail rest

/-- Absoluteness of an IRI reference string, see `schemeTail`. -/
def isAbsoluteIri (s : String) : Bool :=
  match s.data with
  | [] => false
  | c :: rest => c.isAlpha && schemeTail rest

/-- Split a character list into the groups separated by hyphens. -/
def splitOnHyphen : List Char → List (List Char)
  | [] => [[]]
  | c :: rest =>
    if c = '-' then [] :: splitOnHyphen rest
    else
      match splitOnHyphen rest with
      | [] => [[c]]
      | g :: gs => (c :: g) :: gs

/-- Modelled from the spec: validity of one language subtag (1 to 8 letters,
or 1 to 8 letters-or-digits for non-primary subtags). -/
def langSubtagOk (letterOnly : Bool) (t : List Char) : Bool :=
  1 ≤ t.length && t.length ≤ 8 &&
    t.all (fun c => if letterOnly then c.isAlpha else c.isAlphanum)

/-- Modelled from the spec: validity of a language tag (the source delegates
to the external `language_tag` crate). A recognized tag is a primary subtag
of 1 to 8 letters followed by subtags of 1 to 8 letters or digits, separated
by hyphens. -/
def langTagOk (s : String) : Bool :=
  match splitOnHyphen s.data with
  | [] => false
  | first :: rest => langSubtagOk true first && rest.all (langSubtagOk false)

/-- First-character class of the `N3_VARIABLE_NAME` regex of
`src/term/mod.rs` (transcribed range by range; it ends in `_0-9`, so the
underscore and the digits belong to the class). -/
def n3VarNameFirstChar (c : Char) : Bool :=
  c.isAlpha || c.isDigit || c = '_' ||
  inRange c.toNat 0xC0 0xD6 || inRange c.toNat 0xD8 0xF6 ||
  inRange c.toNat 0xF8 0x2FF || inRange c.toNat 0x370 0x37D ||
  inRange c.toNat 0x37F 0x1FFF || inRange c.toNat 0x200C 0x200D ||
  inRange c.toNat 0x2070 0x218F || inRange c.toNat 0x2C00 0x2FEF ||
  inRange c.toNat 0x3001 0xD7FF || inRange c.toNat 0xF900 0xFDCF ||
  inRange c.toNat 0xFDF0 0xFFFD || inRange c.toNat 0x10000 0xEFFFF

/-- Continuation-character class of the `N3_VARIABLE_NAME` regex: the first
class plus `·`, combining marks and the two undertie characters. -/
def n3VarNameRestChar (c : Char) : Bool :=
  n3VarNameFirstChar c || c.toNat = 0xB7 ||
  inRange c.toNat 0x300 0x36F || inRange c.toNat 0x203F 0x2040

/-- The anchored regex `N3_VARIABLE_NAME` of `src/term/mod.rs` as a whole
string matcher: one first-class character followed by continuation-class
characters. -/
def N3_VARIABLE_NAME (s : String) : Bool :=
  match s.data with
  | [] => false
  | c :: cs => n3VarNameFirstChar c && cs.all n3VarNameRestChar

/-- The error taxonomy `Err` of `src/term/mod.rs`. -/
inductive Err where
  | InvalidDatatype (msg : String)
  | InvalidIri (msg : String)
  | InvalidLanguageTag (msg : String)
  | InvalidVariableName (msg : String)
  | InvalidPrefix (msg : String)
  | Other (msg : String)
deriving DecidableEq

/-- Modelled from the spec: the IRI representation of `iri_term.rs` (not
under `src/`) — either a single contiguous string (`suffix = none`) or a
namespace+suffix pair whose concatenation yields the full IRI, plus the
cached "is absolute" flag. -/
structure IriTerm (T : Type) where
  ns : T
  suffix : Option T
  absolute : Bool
deriving DecidableEq

/-- Full IRI string reconstructed from a namespace and an optional suffix. -/
def iriFull (ns : String) (suffix : Option String) : String :=
  match suffix with
  | some s => ns ++ s
  | none => ns

namespace IriTerm

variable {T U : Type} [StrLike T] [StrLike U]

/-- Lexical rendering of an IRI term: the concatenation of its parts. -/
def value (i : IriTerm T) : String :=
  iriFull (borrow i.ns) (i.suffix.map borrow)

/-- Modelled from the spec: `IriTerm::new` of `iri_term.rs` validates that
the concatenation of the parts is a syntactically valid IRI reference, and
caches the absoluteness flag; on failure it reports the Invalid IRI error
carrying the offending string. -/
def new (ns : T) (suffix : Option T) : Except Err (IriTerm T) :=
  let full := iriFull (borrow ns) (suffix.map borrow)
  if is_valid_iri_ref full then
    Except.ok ⟨ns, suffix, isAbsoluteIri full⟩
  else
    Except.error (Err.InvalidIri full)

/-- Modelled from the spec: `IriTerm::copy_with` applies the factory to the
namespace and to the suffix (when present); the cached flag is carried over
unchanged, since rehoming does not re-validate. -/
def copy_with (f : String → T) (i : IriTerm U) : IriTerm T :=
  ⟨f (borrow i.ns), i.suffix.map (fun s => f (borrow s)), i.absolute⟩

/-- Modelled from the spec: two IRI terms are equal iff their full IRI
strings, after resolving any namespace+suffix split on both sides, are
character-equal. -/
def beq (i1 : IriTerm T) (i2 : IriTerm U) : Bool :=
  value i1 == value i2

/-- Leaf strings of an IRI term, in source order. -/
def leafStrings (i : IriTerm T) : List String :=
  borrow i.ns :: (match i.suffix with | some s => [borrow s] | none => [])

end IriTerm

/-- Modelled from the spec: the opaque blank-node label of `bnode_id.rs`
(not under `src/`) — a label string with no further structure. -/
structure BNodeId (T : Type) where
  value : T
deriving DecidableEq

namespace BNodeId

variable {T U : Type} [StrLike T] [StrLike U]

/-- Modelled from the spec: `BNodeId::new` wraps the label; no validation. -/
def new (id : T) : BNodeId T := ⟨id⟩

/-- Modelled from the spec: `BNodeId::copy_with` applies the factory to the
label. -/
def copy_with (f : String → T) (b : BNodeId U) : BNodeId T :=
  ⟨f (borrow b.value)⟩

/-- Modelled from the spec: blank-node equality is pure string equality of
the labels. -/
def beq (b1 : BNodeId T) (b2 : BNodeId U) : Bool :=
  borrow b1.value == borrow b2.value

end BNodeId

/-- Modelled from the spec: the literal-kind discriminator of
`literal_kind.rs` (not under `src/`) — a language tag or a datatype IRI. -/
inductive LiteralKind (T : Type) where
  | Lang (tag : T)
  | Datatype (iri : IriTerm T)
deriving DecidableEq

namespace LiteralKind

variable {T U : Type} [StrLike T] [StrLike U]

/-- Modelled from the spec: `LiteralKind::copy_with` applies the factory to
the tag, respectively to the parts of the datatype IRI. -/
def copy_with (f : String → T) : LiteralKind U → LiteralKind T
  | Lang tag => Lang (f (borrow tag))
  | Datatype iri => Datatype (IriTerm.copy_with f iri)

/-- Modelled from the spec: kinds are equal when both are `Lang` with
character-equal tags, or both are `Datatype` with IRIs equal under the IRI
equality rule; a `Lang` kind never equals a `Datatype` kind. -/
def beq : LiteralKind T → LiteralKind U → Bool
  | Lang t1, Lang t2 => borrow t1 == borrow t2
  | Datatype i1, Datatype i2 => IriTerm.beq i1 i2
  | _, _ => false

/-- Leaf strings of a literal kind, in source order. -/
def leafStrings : LiteralKind T → List String
  | Lang tag => [borrow tag]
  | Datatype iri => IriTerm.leafStrings iri

end LiteralKind

/-- The `Term` sum type of `src/term/mod.rs`: IRI node, blank node, literal
(lexical value plus kind) or variable, parametric in the string-ownership
strategy. -/
inductive Term (T : Type) where
  | Iri (iri : IriTerm T)
  | BNode (id : BNodeId T)
  | Literal (value : T) (kind : LiteralKind T)
  | Variable (name : T)
deriving DecidableEq

namespace Term

variable {T U : Type} [StrLike T] [StrLike U]

/-- The accessor `Term::value` of `src/term/mod.rs`: the lexical value of any
variant, concatenating namespace and suffix for a split IRI. -/
def value : Term T → String
  | Iri iri => IriTerm.value iri
  | BNode id => borrow id.value
  | Literal v _ => borrow v
  | Variable name => borrow name

/-- The validated constructor `Term::new_iri` of `src/term/mod.rs`. -/
def new_iri (iri : T) : Except Err (Term T) :=
  match IriTerm.new iri none with
  | Except.ok it => Except.ok (Iri it)
  | Except.error e => Except.error e

/-- The validated constructor `Term::new_iri2` of `src/term/mod.rs`: takes a
namespace/suffix pair directly. -/
def new_iri2 (ns suffix : T) : Except Err (Term T) :=
  match IriTerm.new ns (some suffix) with
  | Except.ok it => Except.ok (Iri it)
  | Except.error e => Except.error e

/-- The constructor `Term::new_bnode` of `src/term/mod.rs`: wraps the label
with no validation, inside an infallible `Ok`. -/
def new_bnode (id : T) : Except Err (Term T) :=
  Except.ok (BNode (BNodeId.new id))

/-- The validated constructor `Term::new_literal_lang` of
`src/term/mod.rs`: checks the language-tag grammar. -/
def new_literal_lang (txt lang : T) : Except Err (Term T) :=
  if langTagOk (borrow lang) then
    Except.ok (Literal txt (LiteralKind.Lang lang))
  else
    Except.error (Err.InvalidLanguageTag (borrow lang))

/-- Modelled from the spec: the payload of the Invalid datatype error in the
source is the `Debug` rendering of the offending term (`format!` of the
derived `Debug`); its exact text is unspecified here, so we render the
variant name with the term's lexical value. -/
def debugRepr : Term T → String
  | Iri iri => "Iri(" ++ IriTerm.value iri ++ ")"
  | BNode id => "BNode(" ++ borrow id.value ++ ")"
  | Literal v _ => "Literal(" ++ borrow v ++ ")"
  | Variable name => "Variable(" ++ borrow name ++ ")"

/-- The validated constructor `Term::new_literal_dt` of `src/term/mod.rs`:
accepts an `Iri`-variant term as datatype and rejects anything else with the
Invalid datatype error. -/
def new_literal_dt (txt : T) (dt : Term T) : Except Err (Term T) :=
  match dt with
  | Iri iri => Except.ok (Literal txt (LiteralKind.Datatype iri))
  | _ => Except.error (Err.InvalidDatatype (debugRepr dt))

/-- The validated constructor `Term::new_variable` of `src/term/mod.rs`:
checks the name against the `N3_VARIABLE_NAME` regex. -/
def new_variable (name : T) : Except Err (Term T) :=
  if N3_VARIABLE_NAME (borrow name) then
    Except.ok (Variable name)
  else
    Except.error (Err.InvalidVariableName (borrow name))

/-- The rehoming operation `Term::copy_with` of `src/term/mod.rs`: applies
the factory to every leaf string of the source term, dispatching on the
variant; total, with no validation. -/
def copy_with (f : String → T) : Term U → Term T
  | Iri iri => Iri (IriTerm.copy_with f iri)
  | BNode id => BNode (BNodeId.copy_with f id)
  | Literal v kind => Literal (f (borrow v)) (LiteralKind.copy_with f kind)
  | Variable name => Variable (f (borrow name))

/-- The rehoming specialization `Term::copy` of `src/term/mod.rs`:
`copy_with` with the target strategy's `From<&str>` conversion. -/
def copy (other : Term U) : Term T :=
  copy_with fromStr other

/-- The implementation `PartialEq<Term<U>> for Term<T>` of
`src/term/mod.rs`: variant-wise dispatch; IRI terms compare by the IRI
equality rule, blank nodes and variables by their strings, literals by
lexical value and kind; different variants are never equal. -/
def beq : Term T → Term U → Bool
  | Iri iri1, Iri iri2 => IriTerm.beq iri1 iri2
  | BNode id1, BNode id2 => BNodeId.beq id1 id2
  | Literal v1 k1, Literal v2 k2 =>
      (borrow v1 == borrow v2) && LiteralKind.beq k1 k2
  | Variable n1, Variable n2 => borrow n1 == borrow n2
  | _, _ => false

/-- Leaf strings of a term, in source order: namespace and suffix for an
IRI, the label for a blank node, the lexical value followed by the kind's
leaves for a literal, the name for a variable. -/
def leafStrings : Term T → List String
  | Iri iri => IriTerm.leafStrings iri
  | BNode id => [borrow id.value]
  | Literal v kind => borrow v :: LiteralKind.leafStrings kind
  | Variable name => [borrow name]

end Term

/-- Strategy-independent shape of a term: the variant, whether an IRI
payload is split, and for literals the kind discriminator. -/
inductive TermShape where
  | iri (split : Bool)
  | bnode
  | litLang
  | litDt (split : Bool)
  | var
deriving DecidableEq

namespace Term

variable {T U : Type} [StrLike T] [StrLike U]

/-- Shape of a term, see `TermShape`. -/
def shape : Term T → TermShape
  | Iri iri => TermShape.iri iri.suffix.isSome
  | BNode _ => TermShape.bnode
  | Literal _ (LiteralKind.Lang _) => TermShape.litLang
  | Literal _ (LiteralKind.Datatype d) => TermShape.litDt d.suffix.isSome
  | Variable _ => TermShape.var

/-- Strategy erasure: rebuild the term over the plain `String` strategy,
keeping every leaf string and the split structure as they are. -/
def toCanonical (t : Term T) : Term String :=
  copy_with (fun s => s) t

/-- Invariants of section 3 of the spec, as a decidable predicate: the
reconstructed IRI payload is a valid IRI reference, a `Lang` literal carries
a valid language tag, a `Datatype` literal carries a valid IRI, a variable
name matches the restricted identifier grammar; blank-node labels are
unconstrained. -/
def valid : Term T → Bool
  | Iri iri => is_valid_iri_ref (IriTerm.value iri)
  | BNode _ => true
  | Literal _ (LiteralKind.Lang tag) => langTagOk (borrow tag)
  | Literal _ (LiteralKind.Datatype d) => is_valid_iri_ref (IriTerm.value d)
  | Variable name => N3_VARIABLE_NAME (borrow name)

end Term

/-- String hash: a 64-bit polynomial fold over the characters. -/
def strHash (s : String) : Nat :=
  s.data.foldl (fun h c => (h * 31 + c.toNat) % 2 ^ 64) 5381

/-- Combination step for structural hashing, 64-bit. -/
def hashCombine (a b : Nat) : Nat := (a * 1000003 + b) % 2 ^ 64

/-- Modelled from the spec: the hash of an IRI term (the `Hash`
implementation of `iri_term.rs` is not under `src/`; the spec requires
hashing to agree with equality regardless of the split representation, so
the hash is taken over the reconstructed full IRI string). -/
def IriTerm.hash {T : Type} [StrLike T] (i : IriTerm T) : Nat :=
  strHash (IriTerm.value i)

/-- Modelled from the spec: the hash of a literal kind — a discriminant
combined with the tag's string hash or the datatype IRI's hash. -/
def LiteralKind.hash {T : Type} [StrLike T] : LiteralKind T → Nat
  | LiteralKind.Lang tag => hashCombine 0 (strHash (borrow tag))
  | LiteralKind.Datatype iri => hashCombine 1 (IriTerm.hash iri)

/-- Hash of a term (`#[derive(Hash)]` on `Term` feeds the discriminant and
the fields, whose own hash implementations are modelled above): content
hashing over borrowed strings, independent of the ownership strategy. -/
def Term.hash {T : Type} [StrLike T] : Term T → Nat
  | Term.Iri iri => hashCombine 0 (IriTerm.hash iri)
  | Term.BNode id => hashCombine 1 (strHash (borrow id.value))
  | Term.Literal v kind =>
      hashCombine 2 (hashCombine (strHash (borrow v)) (LiteralKind.hash kind))
  | Term.Variable name => hashCombine 3 (strHash (borrow name))

/-- The `Namespace` wrapper of `api/src/ns.rs`: a validated IRI prefix. -/
structure Namespace (T : Type) where
  iri : T
deriving DecidableEq

/-- The constructor `Namespace::new` of `api/src/ns.rs`: checks
`is_valid_iri_ref` and on failure returns the `InvalidIri` error carrying
the offending string (the error type of `sophia_iri` is not under `src/`;
the variant constructed at line 37 of `ns.rs` is literally `InvalidIri`, so
it is rendered here in the `Err` taxonomy of the spec). -/
def Namespace.new {T : Type} [StrLike T] (iri : T) : Except Err (Namespace T) :=
  if is_valid_iri_ref (borrow iri) then
    Except.ok ⟨iri⟩
  else
    Except.error (Err.InvalidIri (borrow iri))

/-- Discriminator: is this result an error of the Invalid prefix kind? -/
def isInvalidPrefixErr {α : Type} : Except Err α → Bool
  | Except.error ( Err.InvalidPrefix _) => true
  | _ => false

/-- Equality of literal kinds as worded by section 4.2 of the spec: `Lang`
compares tags as strings, `Datatype` compares the nested IRI by the
full-reconstructed-IRI rule, and a `Lang` kind never equals a `Datatype`
kind. Stated as a proposition, to be compared with the executable `beq`
taken from the source. -/
def LiteralKind.specEq {T U : Type} [StrLike T] [StrLike U] :
    LiteralKind T → LiteralKind U → Prop
  | LiteralKind.Lang t1, LiteralKind.Lang t2 => borrow t1 = borrow t2
  | LiteralKind.Datatype i1, LiteralKind.Datatype i2 =>
      IriTerm.value i1 = IriTerm.value i2
  | _, _ => False

/-- Equality of terms as worded by section 4.2 of the spec: same variant and
content equal field-by-field — `Iri` by full reconstructed IRI string,
`BNode` and `Variable` by character-equal label/name strings, `Literal` by
equal lexical value and equal kind; terms of different variants are never
equal. -/
def Term.specEq {T U : Type} [StrLike T] [StrLike U] : Term T → Term U → Prop
  | Term.Iri i1, Term.Iri i2 => IriTerm.value i1 = IriTerm.value i2
  | Term.BNode b1, Term.BNode b2 => borrow b1.value = borrow b2.value
  | Term.Literal v1 k1, Term.Literal v2 k2 =>
      borrow v1 = borrow v2 ∧ LiteralKind.specEq k1 k2
  | Term.Variable n1, Term.Variable n2 => borrow n1 = borrow n2
  | _, _ => False

section Lemmas

variable {T U V : Type} [StrLike T] [StrLike U] [StrLike V]

theorem IriTerm.value_copy_with (f : String → T) (hf : ∀ s, borrow (f s) = s)
    (i : IriTerm U) : (IriTerm.copy_with f i).value = i.value := by
  cases i with
  | mk ns suffix abs =>
      cases suffix <;> simp [IriTerm.copy_with, IriTerm.value, iriFull, hf]

theorem LiteralKind.kindBeq_copy_with_left (f : String → T)
    (hf : ∀ s, borrow (f s) = s) (k1 : LiteralKind U) (k2 : LiteralKind V) :
    LiteralKind.beq (LiteralKind.copy_with f k1) k2 = LiteralKind.beq k1 k2 := by
  cases k1 <;> cases k2 <;>
    simp [LiteralKind.beq, LiteralKind.copy_with, IriTerm.beq,
      IriTerm.value_copy_with f hf, hf]

theorem LiteralKind.kindBeq_copy_with_right (f : String → U)
    (hf : ∀ s, borrow (f s) = s) (k1 : LiteralKind T) (k2 : LiteralKind V) :
    LiteralKind.beq k1 (LiteralKind.copy_with f k2) = LiteralKind.beq k1 k2 := by
  cases k1 <;> cases k2 <;>
    simp [LiteralKind.beq, LiteralKind.copy_with, IriTerm.beq,
      IriTerm.value_copy_with f hf, hf]

theorem Term.termBeq_copy_with_left (f : String → T) (hf : ∀ s, borrow (f s) = s)
    (t1 : Term U) (t2 : Term V) :
    Term.beq (Term.copy_with f t1) t2 = Term.beq t1 t2 := by
  cases t1 <;> cases t2 <;>
    simp [Term.beq, Term.copy_with, IriTerm.beq, BNodeId.beq, BNodeId.copy_with,
      IriTerm.value_copy_with f hf, LiteralKind.kindBeq_copy_with_left f hf, hf]

theorem Term.termBeq_copy_with_right (f : String → U) (hf : ∀ s, borrow (f s) = s)
    (t1 : Term T) (t2 : Term V) :
    Term.beq t1 (Term.copy_with f t2) = Term.beq t1 t2 := by
  cases t1 <;> cases t2 <;>
    simp [Term.beq, Term.copy_with, IriTerm.beq, BNodeId.beq, BNodeId.copy_with,
      IriTerm.value_copy_with f hf, LiteralKind.kindBeq_copy_with_right f hf, hf]

theorem LiteralKind.kindBeq_refl (k : LiteralKind T) : LiteralKind.beq k k = true := by
  cases k <;> simp [LiteralKind.beq, IriTerm.beq]

theorem Term.termBeq_refl (t : Term T) : Term.beq t t = true := by
  cases t <;> simp [Term.beq, IriTerm.beq, BNodeId.beq, LiteralKind.kindBeq_refl]

theorem IriTerm.iriHash_copy_with (f : String → T) (hf : ∀ s, borrow (f s) = s)
    (i : IriTerm U) : IriTerm.hash (IriTerm.copy_with f i) = IriTerm.hash i := by
  simp [IriTerm.hash, IriTerm.value_copy_with f hf]

theorem LiteralKind.kindHash_copy_with (f : String → T) (hf : ∀ s, borrow (f s) = s)
    (k : LiteralKind U) :
    LiteralKind.hash (LiteralKind.copy_with f k) = LiteralKind.hash k := by
  cases k <;>
    simp [LiteralKind.hash, LiteralKind.copy_with, IriTerm.iriHash_copy_with f hf, hf]

theorem Term.termHash_copy_with (f : String → T) (hf : ∀ s, borrow (f s) = s)
    (t : Term U) : Term.hash (Term.copy_with f t) = Term.hash t := by
  cases t <;>
    simp [Term.hash, Term.copy_with, IriTerm.iriHash_copy_with f hf,
      LiteralKind.kindHash_copy_with f hf, BNodeId.copy_with, hf]

theorem LiteralKind.beq_iff_specEq (k1 : LiteralKind T) (k2 : LiteralKind U) :
    LiteralKind.beq k1 k2 = true ↔ LiteralKind.specEq k1 k2 := by
  cases k1 <;> cases k2 <;>
    simp [LiteralKind.beq, LiteralKind.specEq, IriTerm.beq]

theorem LiteralKind.hash_eq_of_beq (k1 : LiteralKind T) (k2 : LiteralKind U)
    (h : LiteralKind.beq k1 k2 = true) :
    LiteralKind.hash k1 = LiteralKind.hash k2 := by
  cases k1 <;> cases k2 <;>
    simp [LiteralKind.beq, LiteralKind.hash, IriTerm.beq, IriTerm.hash] at h ⊢ <;>
    rw [h]

end Lemmas

section Claims

variable {T U : Type} [StrLike T] [StrLike U]

/-- Claim C1: for every two terms `t1 : Term T` and `t2 : Term U` over any
string-ownership strategies, the source equality holds iff they are the same
variant with field-by-field equal content (IRI terms by full reconstructed
IRI string, blank nodes and variables by character-equal strings, literals
by equal lexical value and equal kind; different variants, in particular an
IRI and a literal with the same string content, are never equal), and the
result is unchanged when either operand is re-expressed over the plain
string strategy, so it does not depend on the ownership strategies. -/
theorem term_beq_characterization (t1 : Term T) (t2 : Term U) :
    (Term.beq t1 t2 = true ↔ Term.specEq t1 t2) ∧
    Term.beq t1 t2 = Term.beq (Term.toCanonical t1) (Term.toCanonical t2) := by
  constructor
  · cases t1 <;> cases t2 <;>
      simp [Term.beq, Term.specEq, IriTerm.beq, BNodeId.beq,
        LiteralKind.beq_iff_specEq]
  · simp only [Term.toCanonical]
    rw [Term.termBeq_copy_with_left (fun s => s) (fun _ => rfl),
      Term.termBeq_copy_with_right (fun s => s) (fun _ => rfl)]

/-- Claim C2: rehoming a valid term into any other ownership strategy via
`Term::copy` yields a term equal to the original under the section 4.2
equality, with an identical hash. -/
theorem rehoming_preserves_eq_and_hash (t : Term U) (_h : Term.valid t = true) :
    Term.beq (Term.copy (T := T) t) t = true ∧
    Term.hash (Term.copy (T := T) t) = Term.hash t := by
  constructor
  · simp only [Term.copy]
    rw [Term.termBeq_copy_with_left fromStr StrLike.borrow_fromStr]
    exact Term.termBeq_refl t
  · simp only [Term.copy]
    exact Term.termHash_copy_with fromStr StrLike.borrow_fromStr t

/-- Claim C2 witness: rehoming a concrete split IRI term from the owned
strategy into the reference-counted strategy preserves equality and hash. -/
theorem rehoming_preserves_eq_and_hash_witness :
    Term.valid (Term.Iri (T := String) ⟨"http://a/", some "b", true⟩) = true ∧
    (Term.beq
        (Term.copy (T := RcStr) (Term.Iri (T := String) ⟨"http://a/", some "b", true⟩))
        (Term.Iri (T := String) ⟨"http://a/", some "b", true⟩) = true ∧
      Term.hash
        (Term.copy (T := RcStr) (Term.Iri (T := String) ⟨"http://a/", some "b", true⟩)) =
        Term.hash (Term.Iri (T := String) ⟨"http://a/", some "b", true⟩)) :=
  ⟨by decide, rehoming_preserves_eq_and_hash _ (by decide)⟩

/-- Claim C3: terms that are equal under the section 4.2 equality hash
identically, whatever ownership strategy backs each operand and whether
either IRI payload is split or contiguous. -/
theorem equal_terms_hash_equal (t1 : Term T) (t2 : Term U)
    (h : Term.beq t1 t2 = true) : Term.hash t1 = Term.hash t2 := by
  cases t1 <;> cases t2 <;>
    simp_all [Term.beq, Term.hash, IriTerm.beq, BNodeId.beq, IriTerm.hash]
  case Literal.Literal v1 k1 v2 k2 =>
    exact congrArg _ (congrArg _ (LiteralKind.hash_eq_of_beq k1 k2 h.2))

/-- Claim C3 witness: a split owned IRI term and a contiguous shared IRI
term with the same full IRI are equal and hash identically. -/
theorem equal_terms_hash_equal_witness :
    Term.beq (Term.Iri (T := String) ⟨"http://a/", some "b", true⟩)
      (Term.Iri (T := RcStr) ⟨⟨"http://a/b"⟩, none, true⟩) = true ∧
    Term.hash (Term.Iri (T := String) ⟨"http://a/", some "b", true⟩) =
      Term.hash (Term.Iri (T := RcStr) ⟨⟨"http://a/b"⟩, none, true⟩) :=
  ⟨by decide, equal_terms_hash_equal _ _ (by decide)⟩

/-- Claim C4: whenever the concatenation of a namespace `p` and a suffix `q`
is a valid IRI reference, the two-argument constructor `new_iri2 (p, q)` and
the single-string constructor `new_iri (p ++ q)` both succeed and build
equal terms. -/
theorem split_unsplit_equiv (p q : String)
    (h : is_valid_iri_ref (p ++ q) = true) :
    ∃ t2 t1 : Term T,
      Term.new_iri2 (T := T) (fromStr p) (fromStr q) = Except.ok t2 ∧
      Term.new_iri (T := T) (fromStr (p ++ q)) = Except.ok t1 ∧
      Term.beq t2 t1 = true := by
  refine ⟨Term.Iri ⟨fromStr p, some (fromStr q), isAbsoluteIri (p ++ q)⟩,
    Term.Iri ⟨fromStr (p ++ q), none, isAbsoluteIri (p ++ q)⟩, ?_, ?_, ?_⟩
  · simp [Term.new_iri2, IriTerm.new, iriFull, StrLike.borrow_fromStr, h]
  · simp [Term.new_iri, IriTerm.new, iriFull, StrLike.borrow_fromStr, h]
  · simp [Term.beq, IriTerm.beq, IriTerm.value, iriFull, StrLike.borrow_fromStr]

/-- Claim C4 witness: the terms built from `("http://a/", "b")` and from
`"http://a/b"` both construct and are equal. -/
theorem split_unsplit_equiv_witness :
    is_valid_iri_ref ("http://a/" ++ "b") = true ∧
    ∃ t2 t1 : Term String,
      Term.new_iri2 (T := String) (fromStr "http://a/") (fromStr "b") = Except.ok t2 ∧
      Term.new_iri (T := String) (fromStr ("http://a/" ++ "b")) = Except.ok t1 ∧
      Term.beq t2 t1 = true :=
  ⟨by decide, split_unsplit_equiv "http://a/" "b" (by decide)⟩

/-- Claim C5: for every syntactically valid IRI reference string `s`, the
validated constructor `new_iri` succeeds and the rendered lexical value of
the resulting term equals `s`. -/
theorem new_iri_roundtrip (s : String) (h : is_valid_iri_ref s = true) :
    ∃ t : Term T, Term.new_iri (T := T) (fromStr s) = Except.ok t ∧
      Term.value t = s := by
  refine ⟨Term.Iri ⟨fromStr s, none, isAbsoluteIri s⟩, ?_, ?_⟩
  · simp [Term.new_iri, IriTerm.new, iriFull, StrLike.borrow_fromStr, h]
  · simp [Term.value, IriTerm.value, iriFull, StrLike.borrow_fromStr]

/-- Claim C5 witness: constructing `"http://schema.org/"` into the shared
strategy succeeds and renders back the same string. -/
theorem new_iri_roundtrip_witness :
    is_valid_iri_ref "http://schema.org/" = true ∧
    ∃ t : Term RcStr,
      Term.new_iri (T := RcStr) (fromStr "http://schema.org/") = Except.ok t ∧
      Term.value t = "http://schema.org/" :=
  ⟨by decide, new_iri_roundtrip "http://schema.org/" (by decide)⟩

/-- Claim C6: `copy_with` is total (its Lean type `Term U → Term T` returns
a term, not a result, and its definition contains no validation), it
preserves the variant and the kind/split structure, and its leaf strings are
exactly the source's leaf strings, each replaced by the factory applied to
that leaf, in order, none skipped. -/
theorem copy_with_maps_all_leaves (f : String → T) (t : Term U) :
    Term.leafStrings (Term.copy_with f t) =
      (Term.leafStrings t).map (fun s => borrow (f s)) ∧
    Term.shape (Term.copy_with f t) = Term.shape t := by
  constructor
  · cases t with
    | Iri i =>
        cases i with
        | mk ns suf abs =>
            cases suf <;>
              simp [Term.copy_with, Term.leafStrings, IriTerm.leafStrings,
                IriTerm.copy_with]
    | BNode b =>
        simp [Term.copy_with, Term.leafStrings, BNodeId.copy_with]
    | Literal v k =>
        cases k with
        | Lang tag =>
            simp [Term.copy_with, Term.leafStrings, LiteralKind.copy_with,
              LiteralKind.leafStrings]
        | Datatype i =>
            cases i with
            | mk ns suf abs =>
                cases suf <;>
                  simp [Term.copy_with, Term.leafStrings, LiteralKind.copy_with,
                    LiteralKind.leafStrings, IriTerm.leafStrings, IriTerm.copy_with]
    | Variable n =>
        simp [Term.copy_with, Term.leafStrings]
  · cases t with
    | Iri i =>
        simp [Term.copy_with, Term.shape, IriTerm.copy_with, Option.isSome_map]
    | BNode b => rfl
    | Literal v k =>
        cases k with
        | Lang tag => rfl
        | Datatype i =>
            simp [Term.copy_with, Term.shape, LiteralKind.copy_with,
              IriTerm.copy_with, Option.isSome_map]
    | Variable n => rfl

/-- Claim C7 counterexample: `new_variable "1abc"` does not fail — the first
character class of the `N3_VARIABLE_NAME` regex ends in `_0-9`, so a leading
digit is accepted and the constructor returns `Ok`. -/
theorem new_variable_leading_digit_ok :
    Term.new_variable (T := String) "1abc" = Except.ok (Term.Variable "1abc") ∧
    N3_VARIABLE_NAME "1abc" = true :=
  ⟨by rfl, by decide⟩

/-- Claim C7 (amended): `new_variable name` returns `Ok (Variable name)` iff
`name` matches the restricted identifier grammar `N3_VARIABLE_NAME` — whose
first-character class includes the digits and the underscore, so a leading
digit is allowed — and returns the Invalid variable name error otherwise. -/
theorem new_variable_iff_regex (name : T) :
    ((∃ t : Term T, Term.new_variable name = Except.ok t) ↔
      N3_VARIABLE_NAME (borrow name) = true) ∧
    (N3_VARIABLE_NAME (borrow name) = true →
      Term.new_variable name = Except.ok (Term.Variable name)) ∧
    (N3_VARIABLE_NAME (borrow name) = false →
      Term.new_variable name =
        Except.error (Err.InvalidVariableName (borrow name))) := by
  by_cases h : N3_VARIABLE_NAME (borrow name) = true
  · refine ⟨⟨fun _ => h, fun _ => ⟨Term.Variable name, by simp [Term.new_variable, h]⟩⟩,
      fun _ => by simp [Term.new_variable, h], fun hf => ?_⟩
    rw [h] at hf
    cases hf
  · have h' : N3_VARIABLE_NAME (borrow name) = false := by
      simpa using h
    refine ⟨⟨fun ht => ?_, fun hh => absurd hh h⟩, fun hh => absurd hh h,
      fun _ => by simp [Term.new_variable, h']⟩
    obtain ⟨t, ht⟩ := ht
    simp [Term.new_variable, h'] at ht

/-- Claim C7 witness: the single-letter name `"v"` matches the grammar and
constructs a variable term. -/
theorem new_variable_iff_regex_witness :
    N3_VARIABLE_NAME "v" = true ∧
    Term.new_variable (T := String) "v" = Except.ok (Term.Variable "v") :=
  ⟨by decide, (new_variable_iff_regex ("v" : String)).2.1 (by decide)⟩

/-- Claim C8: `new_literal_dt txt dt` returns `Ok` of a literal whose kind
is `Datatype` carrying the IRI of `dt` exactly when `dt` is an `Iri`-variant
term, and returns the Invalid datatype error on a blank node, literal, or
variable argument. -/
theorem new_literal_dt_iri_iff (txt : T) (dt : Term T) :
    match dt with
    | Term.Iri i =>
        Term.new_literal_dt txt dt =
          Except.ok (Term.Literal txt (LiteralKind.Datatype i))
    | _ =>
        ∃ m, Term.new_literal_dt txt dt =
          Except.error (Err.InvalidDatatype m) := by
  cases dt with
  | Iri i => rfl
  | BNode b => exact ⟨_, rfl⟩
  | Literal v k => exact ⟨_, rfl⟩
  | Variable n => exact ⟨_, rfl⟩

/-- Claim C9 counterexample: on the spec's own invalid prefix
`"http://schema.org "` (trailing space), `Namespace::new` surfaces the
Invalid IRI error kind — the literal `InvalidIri(...)` constructed at line
37 of `ns.rs` — and not an error of the Invalid prefix kind, contrary to the
claim. -/
theorem namespace_new_error_kind_counterexample :
    Namespace.new (T := String) "http://schema.org " =
      Except.error (Err.InvalidIri "http://schema.org ") ∧
    isInvalidPrefixErr (Namespace.new (T := String) "http://schema.org ") = false :=
  ⟨by rfl, by rfl⟩

/-- Claim C9 (amended): `Namespace::new p` succeeds, wrapping `p`, iff `p`
is a syntactically valid IRI reference; on failure it surfaces the Invalid
IRI error kind carrying `p` — not the Invalid prefix kind, which is declared
in the taxonomy but not produced by the namespace helper. -/
theorem namespace_new_validity (p : T) :
    ((∃ n : Namespace T, Namespace.new p = Except.ok n ∧ n.iri = p) ↔
      is_valid_iri_ref (borrow p) = true) ∧
    (is_valid_iri_ref (borrow p) = false →
      Namespace.new p = Except.error (Err.InvalidIri (borrow p)) ∧
      isInvalidPrefixErr (Namespace.new p) = false) := by
  by_cases h : is_valid_iri_ref (borrow p) = true
  · refine ⟨⟨fun _ => h, fun _ => ⟨⟨p⟩, by simp [Namespace.new, h], rfl⟩⟩, fun hf => ?_⟩
    rw [h] at hf
    cases hf
  · have h' : is_valid_iri_ref (borrow p) = false := by
      simpa using h
    refine ⟨⟨fun hn => ?_, fun hh => absurd hh h⟩, fun _ => ?_⟩
    · obtain ⟨n, hn, _⟩ := hn
      simp [Namespace.new, h'] at hn
    · have he : Namespace.new p = Except.error (Err.InvalidIri (borrow p)) := by
        simp [Namespace.new, h']
      rw [he]
      exact ⟨rfl, rfl⟩

/-- Claim C9 witness: the invalid prefix `"http://schema.org "` makes
`Namespace::new` fail with the Invalid IRI kind and not the Invalid prefix
kind. -/
theorem namespace_new_validity_witness :
    is_valid_iri_ref "http://schema.org " = false ∧
    (Namespace.new (T := String) "http://schema.org " =
        Except.error (Err.InvalidIri "http://schema.org ") ∧
      isInvalidPrefixErr (Namespace.new (T := String) "http://schema.org ") = false) :=
  ⟨by decide, (namespace_new_validity ("http://schema.org " : String)).2 (by decide)⟩

/-- Claim C10: the blank-node constructor `new_bnode` performs no validation
and always returns `Ok` of a blank node wrapping the given label, for every
input and every ownership strategy. -/
theorem new_bnode_never_fails (id : T) :
    ∃ t : Term T, Term.new_bnode id = Except.ok t ∧ Term.value t = borrow id :=
  ⟨Term.BNode (BNodeId.new id), rfl, rfl⟩

end Claims

end Sophia
